import Mathlib

/-!
Verification development for the baja-bot scheduled-summary subsystem.

Python strings are modelled as `List Char` (ASCII fragment of Python string
semantics), instants as minutes (`Nat`), and `timedelta` values as total
minutes (`Nat`); the zero timedelta (Python falsy) is the value `0`.
External I/O (Discord API calls, the LLM call, the Postgres connection) is
modelled by explicit parameters and by an explicit table state.
-/

set_option maxRecDepth 8000

namespace BajaBot

/-- Characters removed by Python `str.strip` / `lstrip` / `rstrip` with no
arguments (ASCII whitespace). -/
def pyIsSpace (c : Char) : Bool :=
  c = ' ' || c = '\t' || c = '\n' || c = '\r' || c = '\x0b' || c = '\x0c'

/-- Python `str.lstrip()`. -/
def pyLstrip (l : List Char) : List Char :=
  l.dropWhile pyIsSpace

/-- Python `str.rstrip()`. -/
def pyRstrip (l : List Char) : List Char :=
  (l.reverse.dropWhile pyIsSpace).reverse

/-- Python `str.strip()`. -/
def pyStrip (l : List Char) : List Char :=
  pyRstrip (pyLstrip l)

/-- One left-to-right pass recording the last position `i ≤ limit - sub.length`
at which `sub` occurs; `i` is the absolute index of the head of the current
suffix, `best` the best candidate seen so far. -/
def rfindScan (sub : List Char) (limit : Nat) : List Char → Nat → Option Nat → Option Nat
  | [], _, best => best
  | c :: rest, i, best =>
    rfindScan sub limit rest (i + 1)
      (if i + sub.length ≤ limit ∧ sub.isPrefixOf (c :: rest) then some i else best)

/-- Python `text.rfind(sub, 0, e)`: the greatest index `i` with
`i + sub.length ≤ e` at which `sub` occurs in `text`, `none` when there is no
occurrence (Python returns `-1` there). -/
def pyRfind (text sub : List Char) (e : Nat) : Option Nat :=
  rfindScan sub e text 0 none

/-- Embeds `take_text_chunk` (src/schedule_manager.py, lines 299-312): take a
chunk of at most `maxLen` characters, preferring to cut at the last paragraph
break before the limit, then at the last line break, then hard-cutting at the
limit; the chunk is right-stripped and the remainder left-stripped. -/
def take_text_chunk (text : List Char) (maxLen : Nat) : List Char × List Char :=
  if text.length ≤ maxLen then (text, [])
  else
    let split_at :=
      match pyRfind text ['\n', '\n'] maxLen with
      | some i => i
      | none =>
        match pyRfind text ['\n'] maxLen with
        | some i => i
        | none => maxLen
    (pyRstrip (text.take split_at), pyLstrip (text.drop split_at))

/-- The continuation header `"Summary (continued):\n\n"` prepended to every
chunk after the first in `build_summary_messages`. -/
def continuationHeader : List Char :=
  "Summary (continued):\n\n".toList

/-- The `while remaining:` loop of `build_summary_messages`
(src/schedule_manager.py, lines 292-294).  The loop makes progress whenever
`contMax ≥ 1` (`take_text_chunk_progress`); the guarded fallback branch is
unreachable in that regime and exists only to make the recursion well-founded. -/
def buildRest (contMax : Nat) (remaining : List Char) : List (List Char) :=
  if remaining = [] then []
  else
    let p := take_text_chunk remaining contMax
    if hlt : p.2.length < remaining.length then
      (continuationHeader ++ p.1) :: buildRest contMax p.2
    else
      [continuationHeader ++ p.1]
termination_by remaining.length
decreasing_by exact hlt

/-- Embeds `build_summary_messages` (src/schedule_manager.py, lines 278-296):
split `summary` into Discord messages of at most `maxLen` characters, the
first carrying `header` followed by a blank line, the rest carrying the
continuation header. -/
def build_summary_messages (header summary : List Char) (maxLen : Nat := 2000) : List (List Char) :=
  let header := pyStrip header
  let summary := pyStrip summary
  let firstLead := header ++ ['\n', '\n']
  if maxLen ≤ firstLead.length then [header.take maxLen]
  else
    let firstMax := maxLen - firstLead.length
    let p := take_text_chunk summary firstMax
    let contMax := maxLen - continuationHeader.length
    (firstLead ++ p.1) :: buildRest contMax p.2

/-- Numeric value of a digit string, as computed by Python `int`. -/
def natOfDigits (ds : List Char) : Nat :=
  ds.foldl (fun n c => n * 10 + (c.toNat - '0'.toNat)) 0

/-- Embeds `parse_duration` (src/utils.py, lines 12-30), with the resulting
`timedelta` expressed in total minutes.  `re.match(r"(\d+)(mo|[mhdw])", s.lower())`
anchors at the start of the string only: it takes the maximal leading digit
run, then the unit, trying `mo` before the single-letter units, and ignores
any trailing characters.  No match gives `timedelta()`, i.e. `0`. -/
def parse_duration (s : List Char) : Nat :=
  let lower := s.map Char.toLower
  let digits := lower.takeWhile Char.isDigit
  let rest := lower.dropWhile Char.isDigit
  if digits = [] then 0
  else
    let amount := natOfDigits digits
    match rest with
    | 'm' :: 'o' :: _ => amount * 43200
    | 'm' :: _ => amount
    | 'h' :: _ => amount * 60
    | 'd' :: _ => amount * 1440
    | 'w' :: _ => amount * 10080
    | _ => 0

/-- Modelled from the spec: the input pattern `<positive integer><unit>` with
unit in `m`, `h`, `d`, `w`, `mo`, case-insensitive, read as matching the whole
input (this is the spec-side reading against which `parse_duration` is
compared; the source uses `re.match`, which only anchors at the start). -/
def durationPatternFull (s : List Char) : Prop :=
  let lower := s.map Char.toLower
  let digits := lower.takeWhile Char.isDigit
  let rest := lower.dropWhile Char.isDigit
  digits ≠ [] ∧ 0 < natOfDigits digits ∧
    (rest = ['m'] ∨ rest = ['h'] ∨ rest = ['d'] ∨ rest = ['w'] ∨ rest = ['m', 'o'])

instance (s : List Char) : Decidable (durationPatternFull s) := by
  unfold durationPatternFull
  exact inferInstance

/-- The non-digit tail left after the leading digit run begins with one of the
recognised unit letters. -/
def startsWithUnit (l : List Char) : Prop :=
  match l with
  | c :: _ => c = 'm' ∨ c = 'h' ∨ c = 'd' ∨ c = 'w'
  | [] => False

instance (l : List Char) : Decidable (startsWithUnit l) := by
  unfold startsWithUnit
  split <;> exact inferInstance

/-- Embeds `wait_until_start_time` (src/schedule_manager.py, lines 89-112) at
minute precision over a fixed-offset model of the guild timezone (DST
transitions are out of scope): `now` is the current wall-clock instant in
minutes since an epoch midnight, `start_time` the schedule's configured time
of day in minutes.  The value returned is the instant handed to
`discord.utils.sleep_until`: today's occurrence of the start time, pushed to
tomorrow when that target is not strictly in the future. -/
def wait_until_start_time (now start_time : Nat) : Nat :=
  let target := (now / 1440) * 1440 + start_time
  if target ≤ now then target + 1440 else target

/-- Embeds `Summarizer.get_summary` (src/summarizer.py, lines 116-129) after
the external calls: `transcriptEmpty` is whether `build_transcript_with_images`
returned an empty payload and `llmReply` the text the LLM call returned. -/
def get_summary (transcriptEmpty : Bool) (llmReply : List Char) : List Char :=
  if transcriptEmpty then "Not enough content to summarize.".toList
  else if llmReply ≠ [] then
    let summary :=
      if 2000 < llmReply.length then llmReply.take 1997 ++ "...".toList else llmReply
    "**Thread Summary:**\n".toList ++ summary
  else
    "Failed to generate a summary.".toList

/-- Embeds `Summarizer.get_sectioned_summary` (src/summarizer.py, lines
144-250) after the external calls: `dictEmpty` is whether the channel-to-
messages dict was empty, `userContentEmpty` whether the assembled payload was
empty, `llmReply` the text the LLM call returned. -/
def get_sectioned_summary (dictEmpty userContentEmpty : Bool) (llmReply : List Char) : List Char :=
  if dictEmpty then "Not enough content to summarize.".toList
  else if userContentEmpty then "Not enough content to summarize.".toList
  else if llmReply ≠ [] then
    (if 2000 < llmReply.length then llmReply.take 1997 ++ "...".toList else llmReply)
  else
    "Failed to generate a summary.".toList

/-- A Discord message, reduced to its creation instant in minutes. -/
structure Msg where
  createdAt : Nat
deriving DecidableEq

/-- A Discord thread: its id, its full history (oldest first), and whether
fetching that history succeeds (`thread.history` can raise per thread). -/
structure SThread where
  tid : Nat
  history : List Msg
  fetchOk : Bool
deriving DecidableEq

/-- A Discord text channel with its sub-threads.  `archivedOk` / `privateOk`
model whether the two `archived_threads` calls succeed; a failing call is
caught, logged and contributes no threads. -/
structure SChannel where
  history : List Msg
  threads : List SThread
  archivedThreads : List SThread
  archivedOk : Bool
  privateArchivedThreads : List SThread
  privateOk : Bool

/-- `channel.history(limit=limit, after=cutoff, oldest_first=True)`: the
oldest `limit` messages created strictly after `cutoff`, in order (`after` is
exclusive in the Discord API; the stored history is oldest first). -/
def channelHistory (msgs : List Msg) (cutoff limit : Nat) : List Msg :=
  (msgs.filter (fun m => decide (cutoff < m.createdAt))).take limit

/-- The thread-collection phase of `fetch_messages_with_threads`
(src/schedule_manager.py, lines 240-263): active threads, then public
archived, then private archived threads, deduplicated by thread id. -/
def collectThreads (c : SChannel) : List SThread :=
  let step := fun (acc : List SThread) (t : SThread) =>
    if acc.any (fun u => u.tid == t.tid) then acc else acc ++ [t]
  let l1 := c.threads.foldl step []
  let l2 := if c.archivedOk then c.archivedThreads.foldl step l1 else l1
  if c.privateOk then c.privateArchivedThreads.foldl step l2 else l2

/-- Key comparison for the final `messages.sort(key=lambda msg: msg.created_at)`;
Python `list.sort` is a stable sort, modelled by `List.mergeSort`. -/
def msgLe (a b : Msg) : Bool :=
  decide (a.createdAt ≤ b.createdAt)

/-- Embeds `fetch_messages_with_threads` (src/schedule_manager.py, lines
232-275): the channel history, extended with the history of every collected
thread whose fetch succeeds, sorted by creation time. -/
def fetch_messages_with_threads (c : SChannel) (cutoff : Nat) (limit : Nat := 500) : List Msg :=
  let base := channelHistory c.history cutoff limit
  let withThreads := (collectThreads c).foldl
    (fun acc t => if t.fetchOk then acc ++ channelHistory t.history cutoff limit else acc) base
  withThreads.mergeSort msgLe

/-- The single-quote character, used in the category summary header. -/
def squote : Char := Char.ofNat 39

/-- The source channel of a channel-type schedule as the run sees it:
whether `guild.get_channel` resolves it, its mention text, and the messages
the History Fetcher returns for it. -/
structure ChanEnv where
  sourceFound : Bool
  mention : List Char
  fetched : List Msg
deriving DecidableEq

/-- What a run emits: whether the Summarization Pipeline was invoked, the
summary messages posted to the output channel, and whether the
could-not-find-channel warning was posted instead. -/
structure RunOutcome where
  summarizerCalled : Bool
  postedSummary : List (List Char)
  postedWarning : Bool
deriving DecidableEq

/-- Embeds `run_channel_summary` (src/schedule_manager.py, lines 179-201):
a missing source channel posts a warning and returns; zero fetched messages
return silently; otherwise the summary is generated and posted in chunks.
`summaryText` is the text the Summarization Pipeline returns when invoked. -/
def run_channel_summary (source : ChanEnv) (lookback summaryText : List Char) : RunOutcome :=
  if source.sourceFound = false then ⟨false, [], true⟩
  else if source.fetched = [] then ⟨false, [], false⟩
  else
    let header := "**Scheduled Summary: ".toList ++ source.mention ++
      "** (Last ".toList ++ lookback ++ [')']
    ⟨true, build_summary_messages header summaryText 2000, false⟩

/-- Embeds `run_category_summary` (src/schedule_manager.py, lines 203-229):
channels that resolve and have messages enter the sectioned dict; an empty
dict returns without summarizing or posting. -/
def run_category_summary (sources : List ChanEnv) (categoryName lookback summaryText : List Char) :
    RunOutcome :=
  let withMessages := sources.filter (fun s => s.sourceFound && decide (s.fetched ≠ []))
  if withMessages = [] then ⟨false, [], false⟩
  else
    let header := "**Scheduled Summary: Category ".toList ++ squote :: categoryName ++
      squote :: "** (Last ".toList ++ lookback ++ [')']
    ⟨true, build_summary_messages header summaryText 2000, false⟩

/-- One run's environment: the resolution results, the stored schedule
fields, and the outcome of the external transcript/LLM calls. -/
structure RunEnv where
  guildFound : Bool
  outputChannelFound : Bool
  lookback : List Char
  scheduleType : List Char
  targetName : List Char
  source : ChanEnv
  catSources : List ChanEnv
  transcriptEmpty : Bool
  userContentEmpty : Bool
  llmReply : List Char

/-- Embeds `run_scheduled_summary` (src/schedule_manager.py, lines 115-177)
for exception-free executions: the first component is whether
`storage.update_last_run` was called, the second what the run emitted.
Aborts on an unresolved guild, an unresolved output channel or a falsy parsed
lookback skip the update; after the per-type routine returns, the update runs
unconditionally. -/
def run_scheduled_summary (env : RunEnv) : Bool × RunOutcome :=
  if env.guildFound = false then (false, ⟨false, [], false⟩)
  else if env.outputChannelFound = false then (false, ⟨false, [], false⟩)
  else if parse_duration env.lookback = 0 then (false, ⟨false, [], false⟩)
  else
    let outcome :=
      if env.scheduleType = "channel".toList then
        run_channel_summary env.source env.lookback
          (get_summary env.transcriptEmpty env.llmReply)
      else if env.scheduleType = "category".toList then
        run_category_summary env.catSources env.targetName env.lookback
          (get_sectioned_summary false env.userContentEmpty env.llmReply)
      else ⟨false, [], false⟩
    (true, outcome)

/-- The failure psycopg2 surfaces when an INSERT violates a CHECK constraint
of the `scheduled_summaries` schema; the spec calls it ValidationError. -/
inductive StoreError where
  | validationError
deriving DecidableEq

/-- A row of `scheduled_summaries` (src/init_db.py, lines 38-58), restricted
to the columns the claims mention; `start_time` is minutes since midnight and
`last_run` an instant in minutes when set. -/
structure ScheduleRow where
  id : Nat
  guild_id : Nat
  channel_ids : List Nat
  target_name : List Char
  schedule_type : List Char
  output_channel_id : Nat
  start_time : Nat
  interval_hours : Int
  lookback_duration : List Char
  created_by_user_id : Nat
  active : Bool
  last_run : Option Nat
deriving DecidableEq

/-- The `scheduled_summaries` table: rows in insertion order plus the SERIAL
id counter. -/
structure ScheduleDB where
  rows : List ScheduleRow
  nextId : Nat

/-- The CHECK constraints `valid_schedule_type` and `valid_interval` of the
`scheduled_summaries` schema (src/init_db.py, lines 55-56). -/
def rowConstraintsOk (schedule_type : List Char) (interval_hours : Int) : Bool :=
  (schedule_type == "channel".toList || schedule_type == "category".toList) &&
    decide (0 < interval_hours)

/-- Embeds `ScheduleStorage.add_schedule` (src/schedule_storage.py, lines
61-97) against the schema of src/init_db.py: the INSERT names neither
`active` nor `last_run`, so the row takes the column defaults
`active = TRUE` and `last_run = NULL`; the new SERIAL id is returned; a row
violating a CHECK constraint makes the INSERT fail instead. -/
def add_schedule (db : ScheduleDB) (guild_id : Nat) (channel_ids : List Nat)
    (target_name schedule_type : List Char) (output_channel_id : Nat)
    (start_time : Nat) (interval_hours : Int) (lookback_duration : List Char)
    (created_by_user_id : Nat) : Except StoreError (Nat × ScheduleDB) :=
  let row : ScheduleRow :=
    { id := db.nextId, guild_id := guild_id, channel_ids := channel_ids,
      target_name := target_name, schedule_type := schedule_type,
      output_channel_id := output_channel_id, start_time := start_time,
      interval_hours := interval_hours, lookback_duration := lookback_duration,
      created_by_user_id := created_by_user_id, active := true, last_run := none }
  if rowConstraintsOk schedule_type interval_hours then
    .ok (db.nextId, { rows := db.rows ++ [row], nextId := db.nextId + 1 })
  else
    .error .validationError

/-- `ORDER BY start_time` as a key comparison. -/
def scheduleLe (a b : ScheduleRow) : Bool :=
  decide (a.start_time ≤ b.start_time)

/-- `ORDER BY guild_id, start_time` as a key comparison. -/
def scheduleGuildLe (a b : ScheduleRow) : Bool :=
  decide (a.guild_id < b.guild_id) ||
    (decide (a.guild_id = b.guild_id) && decide (a.start_time ≤ b.start_time))

/-- Embeds `ScheduleStorage.get_all_active_schedules` (src/schedule_storage.py,
lines 35-59).  Python's `if guild_id:` treats both `None` and `0` as no
filter; the filtered query orders by `start_time`, the unfiltered one by
`guild_id, start_time`.  `ORDER BY` is modelled as a stable sort over
insertion order. -/
def get_all_active_schedules (db : ScheduleDB) (guild_id : Option Nat := none) :
    List ScheduleRow :=
  match guild_id with
  | some g =>
    if g ≠ 0 then
      (db.rows.filter (fun r => r.active && decide (r.guild_id = g))).mergeSort scheduleLe
    else
      (db.rows.filter (fun r => r.active)).mergeSort scheduleGuildLe
  | none => (db.rows.filter (fun r => r.active)).mergeSort scheduleGuildLe

/-- The tail of the C6 body after its paragraph break: 298 `'b'` characters,
one lone line break, then 699 `'c'` characters. -/
def tailC6 : List Char :=
  List.replicate 298 'b' ++ '\n' :: List.replicate 699 'c'

/-- The C6 body: a paragraph break at position 1500, a lone line break at
position 1800, total length 2500. -/
def bodyC6 : List Char :=
  List.replicate 1500 'a' ++ '\n' :: '\n' :: tailC6

/-- The C1 counterexample environment: everything resolves, the lookback is
the valid `"24h"`, the schedule is channel-typed, the source channel exists,
and the History Fetcher returns zero messages. -/
def envZeroMessages : RunEnv :=
  { guildFound := true, outputChannelFound := true, lookback := "24h".toList,
    scheduleType := "channel".toList, targetName := "general".toList,
    source := { sourceFound := true, mention := "#general".toList, fetched := [] },
    catSources := [], transcriptEmpty := false, userContentEmpty := false,
    llmReply := "text".toList }

/-- The C3 counterexample channel: 501 messages after the cutoff, no
threads. -/
def bigChannel : SChannel :=
  { history := (List.range 501).map (fun i => ⟨i + 1⟩), threads := [],
    archivedThreads := [], archivedOk := true,
    privateArchivedThreads := [], privateOk := true }

/-- The C8 counterexample rows: the earlier start time belongs to the larger
tenant id, so `ORDER BY guild_id, start_time` puts it second. -/
def rowLaterStart : ScheduleRow :=
  { id := 1, guild_id := 2, channel_ids := [10], target_name := "a".toList, schedule_type := "channel".toList, output_channel_id := 5, start_time := 60, interval_hours := 24, lookback_duration := "24h".toList, created_by_user_id := 7, active := true, last_run := none }

/-- Second C8 counterexample row: smaller tenant id, later start time. -/
def rowEarlierGuild : ScheduleRow :=
  { id := 2, guild_id := 1, channel_ids := [11], target_name := "b".toList, schedule_type := "channel".toList, output_channel_id := 5, start_time := 120, interval_hours := 24, lookback_duration := "24h".toList, created_by_user_id := 7, active := true, last_run := none }

/-- The C8 counterexample table. -/
def dbC8 : ScheduleDB :=
  { rows := [rowLaterStart, rowEarlierGuild], nextId := 3 }

theorem length_pyLstrip_le (l : List Char) : (pyLstrip l).length ≤ l.length :=
  (List.dropWhile_sublist pyIsSpace).length_le

theorem length_pyLstrip_lt (c : Char) (t : List Char) (h : pyIsSpace c = true) :
    (pyLstrip (c :: t)).length < (c :: t).length := by
  simp only [pyLstrip, List.dropWhile_cons, h, if_true]
  exact Nat.lt_succ_of_le (length_pyLstrip_le t)

theorem rfindScan_eq_some (sub : List Char) (limit : Nat) :
    ∀ (l : List Char) (idx : Nat) (best : Option Nat) (r : Nat),
      rfindScan sub limit l idx best = some r →
      best = some r ∨ (idx ≤ r ∧ r + sub.length ≤ limit ∧ sub.isPrefixOf (l.drop (r - idx)))
  | [], _, _, _, h => Or.inl h
  | c :: rest, idx, best, r, h => by
    rw [rfindScan] at h
    rcases rfindScan_eq_some sub limit rest (idx + 1) _ r h with h' | ⟨h1, h2, h3⟩
    · split at h'
      · rename_i hc
        cases h'
        refine Or.inr ⟨Nat.le_refl _, hc.1, ?_⟩
        simpa using hc.2
      · exact Or.inl h'
    · refine Or.inr ⟨Nat.le_trans (Nat.le_succ idx) h1, h2, ?_⟩
      have hr : r - idx = (r - (idx + 1)) + 1 := by omega
      rw [hr]
      simpa using h3

theorem pyRfind_eq_some {text sub : List Char} {e r : Nat}
    (h : pyRfind text sub e = some r) :
    r + sub.length ≤ e ∧ sub.isPrefixOf (text.drop r) := by
  rcases rfindScan_eq_some sub e text 0 none r h with h' | ⟨_, h2, h3⟩
  · exact absurd h' (by simp)
  · exact ⟨h2, by simpa using h3⟩

theorem rfindScan_of_no_match (sub : List Char) (limit : Nat) :
    ∀ (l : List Char) (idx : Nat) (best : Option Nat),
      (∀ q : Nat, idx ≤ q →
        ¬(q + sub.length ≤ limit ∧ sub.isPrefixOf (l.drop (q - idx)))) →
      rfindScan sub limit l idx best = best
  | [], _, _, _ => rfl
  | c :: rest, idx, best, h => by
    rw [rfindScan, if_neg (by simpa using h idx (Nat.le_refl idx))]
    refine rfindScan_of_no_match sub limit rest (idx + 1) best ?_
    intro q hq hc
    refine h q (by omega) ⟨hc.1, ?_⟩
    have hq' : q - idx = (q - (idx + 1)) + 1 := by omega
    rw [hq', List.drop_succ_cons]
    exact hc.2

theorem rfindScan_finds_last (sub : List Char) (limit : Nat) (hsub : sub ≠ []) :
    ∀ (l : List Char) (idx : Nat) (best : Option Nat) (p : Nat),
      idx ≤ p →
      p + sub.length ≤ limit →
      sub.isPrefixOf (l.drop (p - idx)) →
      (∀ q : Nat, p < q →
        ¬(q + sub.length ≤ limit ∧ sub.isPrefixOf (l.drop (q - idx)))) →
      rfindScan sub limit l idx best = some p
  | [], _, _, _, _, _, hpre, _ => by
    cases sub with
    | nil => exact absurd rfl hsub
    | cons a as => simp at hpre
  | c :: rest, idx, best, p, hp, hlim, hpre, hlater => by
    rw [rfindScan]
    rcases Nat.lt_or_ge idx p with hlt | hge
    · refine rfindScan_finds_last sub limit hsub rest (idx + 1) _ p (by omega) hlim ?_ ?_
      · have hq' : p - idx = (p - (idx + 1)) + 1 := by omega
        rw [hq', List.drop_succ_cons] at hpre
        exact hpre
      · intro q hq hc
        refine hlater q hq ⟨hc.1, ?_⟩
        have hq' : q - idx = (q - (idx + 1)) + 1 := by omega
        rw [hq', List.drop_succ_cons]
        exact hc.2
    · have hip : idx = p := Nat.le_antisymm hp hge
      subst hip
      rw [if_pos ⟨hlim, by simpa using hpre⟩]
      refine rfindScan_of_no_match sub limit rest (idx + 1) _ ?_
      intro q hq hc
      refine hlater q (by omega) ⟨hc.1, ?_⟩
      have hq' : q - idx = (q - (idx + 1)) + 1 := by omega
      rw [hq', List.drop_succ_cons]
      exact hc.2

theorem pyRfind_eq_none_of (text sub : List Char) (e : Nat)
    (h : ∀ q : Nat, ¬(q + sub.length ≤ e ∧ sub.isPrefixOf (text.drop q))) :
    pyRfind text sub e = none := by
  refine rfindScan_of_no_match sub e text 0 none ?_
  intro q _
  simpa using h q

theorem pyRfind_eq_some_of (text sub : List Char) (e p : Nat) (hsub : sub ≠ [])
    (hlim : p + sub.length ≤ e) (hpre : sub.isPrefixOf (text.drop p))
    (hlater : ∀ q : Nat, p < q → ¬(q + sub.length ≤ e ∧ sub.isPrefixOf (text.drop q))) :
    pyRfind text sub e = some p := by
  refine rfindScan_finds_last sub e hsub text 0 none p (Nat.zero_le p) hlim
    (by simpa using hpre) ?_
  intro q hq
  simpa using hlater q hq

theorem cons_not_isPrefixOf_cons (a b : Char) (as bs : List Char)
    (h : (a == b) = false) : (a :: as).isPrefixOf (b :: bs) = false := by
  simp [List.isPrefixOf_cons₂, h]

theorem newline_not_isPrefixOf_replicate (t : List Char) (k : Nat) (c : Char)
    (hc : ('\n' == c) = false) :
    ('\n' :: t).isPrefixOf (List.replicate k c) = false := by
  cases k with
  | zero => rfl
  | succ k =>
    rw [List.replicate_succ]
    exact cons_not_isPrefixOf_cons _ _ _ _ hc

theorem pyRfind_newline_replicate (t : List Char) (n e : Nat) :
    pyRfind (List.replicate n 'a') ('\n' :: t) e = none := by
  refine pyRfind_eq_none_of _ _ _ ?_
  rintro q ⟨-, hpre⟩
  rw [List.drop_replicate, newline_not_isPrefixOf_replicate t _ 'a' (by decide)] at hpre
  cases hpre

theorem pyRstrip_replicate_a (n : Nat) : pyRstrip (List.replicate n 'a') = List.replicate n 'a' := by
  simp [pyRstrip, List.dropWhile_replicate, pyIsSpace]

theorem pyLstrip_replicate_a (n : Nat) : pyLstrip (List.replicate n 'a') = List.replicate n 'a' := by
  simp [pyLstrip, List.dropWhile_replicate, pyIsSpace]

theorem take_text_chunk_of_le (text : List Char) (maxLen : Nat)
    (h : text.length ≤ maxLen) : take_text_chunk text maxLen = (text, []) := by
  simp [take_text_chunk, h]

theorem take_text_chunk_hard_cut (text : List Char) (maxLen : Nat)
    (hlen : maxLen < text.length)
    (h2 : pyRfind text ['\n', '\n'] maxLen = none)
    (h1 : pyRfind text ['\n'] maxLen = none) :
    take_text_chunk text maxLen = (pyRstrip (text.take maxLen), pyLstrip (text.drop maxLen)) := by
  rw [take_text_chunk, if_neg (by omega)]
  simp only [h2, h1]

theorem take_text_chunk_at_para (text : List Char) (maxLen i : Nat)
    (hlen : maxLen < text.length)
    (h2 : pyRfind text ['\n', '\n'] maxLen = some i) :
    take_text_chunk text maxLen = (pyRstrip (text.take i), pyLstrip (text.drop i)) := by
  rw [take_text_chunk, if_neg (by omega)]
  simp only [h2]

/-- Whenever the per-chunk budget is at least one character, taking a chunk
strictly shortens the remaining text: the chunk plus the whitespace stripped
at the split point consumes at least one character. -/
theorem take_text_chunk_progress (text : List Char) (maxLen : Nat)
    (hmax : 1 ≤ maxLen) (hne : text ≠ []) :
    ((take_text_chunk text maxLen).2).length < text.length := by
  have hpos : 0 < text.length := List.length_pos.mpr hne
  have key1 : ∀ i : Nat, 1 ≤ i → (pyLstrip (text.drop i)).length < text.length := by
    intro i hi
    calc (pyLstrip (text.drop i)).length
        ≤ (text.drop i).length := length_pyLstrip_le _
      _ < text.length := by
          rw [List.length_drop]
          omega
  have key0 : (∃ t, text = '\n' :: t) → (pyLstrip (text.drop 0)).length < text.length := by
    rintro ⟨t, rfl⟩
    simpa using length_pyLstrip_lt '\n' t (by decide)
  unfold take_text_chunk
  split
  · simpa using hpos
  · rename_i hlen
    cases h2 : pyRfind text ['\n', '\n'] maxLen with
    | some i =>
      simp only [h2]
      rcases pyRfind_eq_some h2 with ⟨_, hpre⟩
      rcases Nat.eq_zero_or_pos i with hi | hi
      · subst hi
        refine key0 ?_
        have hp : ['\n', '\n'] <+: text := by simpa using hpre
        obtain ⟨t, rfl⟩ := hp
        exact ⟨'\n' :: t, rfl⟩
      · exact key1 i hi
    | none =>
      cases h3 : pyRfind text ['\n'] maxLen with
      | some i =>
        simp only [h2, h3]
        rcases pyRfind_eq_some h3 with ⟨_, hpre⟩
        rcases Nat.eq_zero_or_pos i with hi | hi
        · subst hi
          refine key0 ?_
          have hp : ['\n'] <+: text := by simpa using hpre
          obtain ⟨t, rfl⟩ := hp
          exact ⟨t, rfl⟩
        · exact key1 i hi
      | none =>
        simp only [h2, h3]
        exact key1 maxLen hmax

/-- C4 counterexample: `parse_duration "1hxyz"` returns one hour (60 minutes),
a non-sentinel value, although `"1hxyz"` does not match the spec's pattern
`<positive integer><unit>` as a whole input. -/
theorem parse_duration_trailing_garbage_counterexample :
    parse_duration "1hxyz".toList = 60 ∧ ¬ durationPatternFull "1hxyz".toList := by
  decide

/-- C4 (amended): `parse_duration` returns a non-sentinel duration exactly
when the lowercased input BEGINS with `<digits><unit>` with a positive
amount — trailing characters are ignored, since `re.match` anchors only at
the start; the unit values are minutes, hours, days, weeks and 30-day months,
and the spec's examples behave as stated. -/
theorem parse_duration_spec :
    (∀ s : List Char,
      parse_duration s ≠ 0 ↔
        ((s.map Char.toLower).takeWhile Char.isDigit ≠ [] ∧
         0 < natOfDigits ((s.map Char.toLower).takeWhile Char.isDigit) ∧
         startsWithUnit ((s.map Char.toLower).dropWhile Char.isDigit))) ∧
    parse_duration "24h".toList = 24 * 60 ∧
    parse_duration "1mo".toList = 30 * 1440 ∧
    parse_duration "".toList = 0 ∧
    parse_duration "xyz".toList = 0 ∧
    parse_duration "h".toList = 0 ∧
    parse_duration "1hxyz".toList = 60 := by
  refine ⟨?_, by decide, by decide, by decide, by decide, by decide, by decide⟩
  intro s
  simp only [parse_duration]
  split
  · rename_i hd
    simp [hd]
  · rename_i hd
    split
    · rename_i tail heq
      rw [heq]
      simp [startsWithUnit, hd, Nat.mul_eq_zero, Nat.pos_iff_ne_zero]
    · rename_i tail heq
      rw [heq]
      simp [startsWithUnit, hd, Nat.pos_iff_ne_zero]
    · rename_i tail heq
      rw [heq]
      simp [startsWithUnit, hd, Nat.mul_eq_zero, Nat.pos_iff_ne_zero]
    · rename_i tail heq
      rw [heq]
      simp [startsWithUnit, hd, Nat.mul_eq_zero, Nat.pos_iff_ne_zero]
    · rename_i tail heq
      rw [heq]
      simp [startsWithUnit, hd, Nat.mul_eq_zero, Nat.pos_iff_ne_zero]
    · rename_i hn1 hn2 hn3 hn4 hn5
      cases hrest : (s.map Char.toLower).dropWhile Char.isDigit with
      | nil => simp [startsWithUnit]
      | cons c tail =>
        constructor
        · intro hne
          exact absurd rfl hne
        · rintro ⟨-, -, hu⟩
          rcases hu with rfl | rfl | rfl | rfl
          · exact absurd hrest (by simpa using hn2 tail)
          · exact absurd hrest (by simpa using hn3 tail)
          · exact absurd hrest (by simpa using hn4 tail)
          · exact absurd hrest (by simpa using hn5 tail)

theorem take_text_chunk_rep3000 :
    take_text_chunk (List.replicate 3000 'a') 1997 =
      (List.replicate 1997 'a', List.replicate 1003 'a') := by
  rw [take_text_chunk_hard_cut _ _ (by rw [List.length_replicate]; omega)
    (pyRfind_newline_replicate _ _ _) (pyRfind_newline_replicate _ _ _)]
  rw [List.take_replicate, List.drop_replicate]
  norm_num [pyRstrip_replicate_a, pyLstrip_replicate_a]

theorem buildRest_nil (contMax : Nat) : buildRest contMax [] = [] := by
  rw [buildRest, if_pos rfl]

theorem buildRest_rep1003 :
    buildRest 1978 (List.replicate 1003 'a') =
      [continuationHeader ++ List.replicate 1003 'a'] := by
  rw [buildRest]
  rw [if_neg (by simp)]
  simp only [take_text_chunk_of_le (List.replicate 1003 'a') 1978
    (by rw [List.length_replicate]; omega)]
  rw [dif_pos (by rw [List.length_nil, List.length_replicate]; omega)]
  rw [buildRest_nil]

/-- C5: with header `"H"` and a body of 3000 `'a'` characters and no line
breaks, the chunker returns exactly two messages, each within the 2000
character limit, and dropping the 3-character header lead from the first and
the continuation header from the second reconstructs the body losslessly. -/
theorem chunker_flat_body_two_chunks :
    build_summary_messages ['H'] (List.replicate 3000 'a') 2000 =
      [['H', '\n', '\n'] ++ List.replicate 1997 'a',
       continuationHeader ++ List.replicate 1003 'a'] ∧
    (∀ m ∈ build_summary_messages ['H'] (List.replicate 3000 'a') 2000, m.length ≤ 2000) ∧
    (['H', '\n', '\n'] ++ List.replicate 1997 'a').drop 3 ++
        (continuationHeader ++ List.replicate 1003 'a').drop continuationHeader.length =
      List.replicate 3000 'a' := by
  have hstripH : pyStrip ['H'] = ['H'] := by decide
  have hstripB : pyStrip (List.replicate 3000 'a') = List.replicate 3000 'a' := by
    unfold pyStrip
    rw [pyLstrip_replicate_a, pyRstrip_replicate_a]
  have hch : continuationHeader.length = 22 := by decide
  have hmain : build_summary_messages ['H'] (List.replicate 3000 'a') 2000 =
      [['H', '\n', '\n'] ++ List.replicate 1997 'a',
       continuationHeader ++ List.replicate 1003 'a'] := by
    simp only [build_summary_messages, hstripH, hstripB]
    rw [if_neg (by decide)]
    norm_num [hch, take_text_chunk_rep3000, buildRest_rep1003]
  refine ⟨hmain, ?_, ?_⟩
  · rw [hmain]
    intro m hm
    rcases List.mem_pair.mp hm with rfl | rfl
    · simp [List.length_append, List.length_replicate]
    · simp [List.length_append, List.length_replicate, hch]
  · rw [List.drop_left' (by decide), List.drop_left, ← List.replicate_add]

theorem tailC6_cons : tailC6 = 'b' :: (List.replicate 297 'b' ++ '\n' :: List.replicate 699 'c') := by
  rw [tailC6, show (298 : Nat) = 297 + 1 from rfl, List.replicate_succ, List.cons_append]

theorem bodyC6_drop (q : Nat) (h : 1500 ≤ q) :
    bodyC6.drop q = ('\n' :: '\n' :: tailC6).drop (q - 1500) := by
  rw [bodyC6, List.drop_append_eq_append_drop, List.drop_replicate, List.length_replicate]
  have h1 : 1500 - q = 0 := by omega
  rw [h1]
  simp

theorem tailC6_drop_lt (j : Nat) (h : j < 298) :
    tailC6.drop j = 'b' :: (List.replicate (297 - j) 'b' ++ '\n' :: List.replicate 699 'c') := by
  rw [tailC6, List.drop_append_eq_append_drop, List.drop_replicate, List.length_replicate]
  have h1 : j - 298 = 0 := by omega
  have h2 : 298 - j = (297 - j) + 1 := by omega
  rw [h1, h2, List.replicate_succ]
  simp

theorem tailC6_drop_298 : tailC6.drop 298 = '\n' :: List.replicate 699 'c' := by
  rw [tailC6, List.drop_append_eq_append_drop, List.drop_replicate, List.length_replicate]
  norm_num

theorem tailC6_drop_gt (j : Nat) (h : 298 < j) :
    tailC6.drop j = List.replicate (699 - (j - 299)) 'c' := by
  rw [tailC6, List.drop_append_eq_append_drop, List.drop_replicate, List.length_replicate]
  have h1 : 298 - j = 0 := by omega
  have h2 : j - 298 = (j - 299) + 1 := by omega
  rw [h1, h2]
  simp only [List.replicate_zero, List.nil_append, List.drop_succ_cons, List.drop_replicate]

theorem c6_rfind_para : pyRfind bodyC6 ['\n', '\n'] 2000 = some 1500 := by
  refine pyRfind_eq_some_of _ _ _ _ (by decide) (by norm_num) ?_ ?_
  · rw [bodyC6_drop 1500 (Nat.le_refl _)]
    simp [List.isPrefixOf_cons₂]
  · rintro q hq ⟨hle, hpre⟩
    rw [bodyC6_drop q (by omega)] at hpre
    rcases Nat.lt_or_ge q 1502 with h2 | h2
    · have hk : q - 1500 = 1 := by omega
      rw [hk, List.drop_succ_cons, List.drop_zero] at hpre
      rw [tailC6_cons] at hpre
      simp only [List.isPrefixOf_cons₂] at hpre
      simp at hpre
    · have hk : q - 1500 = (q - 1502) + 1 + 1 := by omega
      rw [hk, List.drop_succ_cons, List.drop_succ_cons] at hpre
      rcases Nat.lt_trichotomy (q - 1502) 298 with h3 | h3 | h3
      · rw [tailC6_drop_lt _ h3] at hpre
        simp only [List.isPrefixOf_cons₂] at hpre
        simp at hpre
      · rw [h3, tailC6_drop_298] at hpre
        simp only [List.isPrefixOf_cons₂] at hpre
        rw [newline_not_isPrefixOf_replicate _ _ _ (by decide)] at hpre
        simp at hpre
      · rw [tailC6_drop_gt _ h3, newline_not_isPrefixOf_replicate _ _ _ (by decide)] at hpre
        simp at hpre

theorem c6_rfind_line : pyRfind bodyC6 ['\n'] 2000 = some 1800 := by
  refine pyRfind_eq_some_of _ _ _ _ (by decide) (by norm_num) ?_ ?_
  · rw [bodyC6_drop 1800 (by omega)]
    have hk : (1800 : Nat) - 1500 = 298 + 1 + 1 := by norm_num
    rw [hk, List.drop_succ_cons, List.drop_succ_cons, tailC6_drop_298]
    simp [List.isPrefixOf_cons₂]
  · rintro q hq ⟨hle, hpre⟩
    rw [bodyC6_drop q (by omega)] at hpre
    have hk : q - 1500 = (q - 1502) + 1 + 1 := by omega
    rw [hk, List.drop_succ_cons, List.drop_succ_cons] at hpre
    rw [tailC6_drop_gt _ (by omega), newline_not_isPrefixOf_replicate _ _ _ (by decide)] at hpre
    simp at hpre

theorem bodyC6_length : bodyC6.length = 2500 := by
  rw [bodyC6, tailC6]
  simp

/-- C6: with limit 2000, the chunker cuts the C6 body exactly at the
paragraph break at position 1500 — not at the later line break at 1800 and
not with a hard cut at 2000 — and the remainder is the text after the
paragraph break with the break itself stripped. -/
theorem chunker_prefers_paragraph_break :
    bodyC6.length = 2500 ∧
    pyRfind bodyC6 ['\n', '\n'] 2000 = some 1500 ∧
    pyRfind bodyC6 ['\n'] 2000 = some 1800 ∧
    take_text_chunk bodyC6 2000 =
      (List.replicate 1500 'a', List.replicate 298 'b' ++ '\n' :: List.replicate 699 'c') := by
  refine ⟨bodyC6_length, c6_rfind_para, c6_rfind_line, ?_⟩
  rw [take_text_chunk_at_para _ _ _ (by rw [bodyC6_length]; omega) c6_rfind_para]
  rw [bodyC6, List.take_left' (by rw [List.length_replicate]), List.drop_left' (by rw [List.length_replicate])]
  rw [pyRstrip_replicate_a]
  rw [show pyLstrip ('\n' :: '\n' :: tailC6) = pyLstrip tailC6 by
    simp [pyLstrip, List.dropWhile_cons, pyIsSpace]]
  rw [tailC6_cons]
  rw [show pyLstrip ('b' :: (List.replicate 297 'b' ++ '\n' :: List.replicate 699 'c')) =
      'b' :: (List.replicate 297 'b' ++ '\n' :: List.replicate 699 'c') by
    simp [pyLstrip, List.dropWhile_cons, pyIsSpace]]
  rw [← List.cons_append, ← List.replicate_succ]

/-- C9: for the default message limit 2000 and for every limit exceeding the
continuation header length plus one, each pass of the `while remaining:` loop
in `build_summary_messages` strictly shortens the remaining text, so the
chunking loop terminates: the chunk taken plus the whitespace stripped at the
split point always consumes at least one character. -/
theorem chunk_loop_strictly_shrinks (maxLen : Nat)
    (hmax : continuationHeader.length + 1 < maxLen)
    (remaining : List Char) (hne : remaining ≠ []) :
    ((take_text_chunk remaining (maxLen - continuationHeader.length)).2).length <
      remaining.length := by
  refine take_text_chunk_progress remaining _ ?_ hne
  have h22 : continuationHeader.length = 22 := by decide
  omega

/-- Witness for C9 at the default limit 2000 and a one-character remainder. -/
theorem chunk_loop_strictly_shrinks_witness :
    ((take_text_chunk ['a'] (2000 - continuationHeader.length)).2).length <
      (['a'] : List Char).length :=
  chunk_loop_strictly_shrinks 2000 (by decide) ['a'] (by decide)

/-- C7: the first-fire wait targets today's occurrence of the daily start
time when that time of day is still ahead today, and tomorrow's occurrence
when it has already passed (equality counts as passed, since the code tests
`target <= now`); the task sleeps until exactly the returned instant. -/
theorem wait_until_start_time_spec (now s : Nat) (hs : s < 1440) :
    (now % 1440 < s → wait_until_start_time now s = (now / 1440) * 1440 + s) ∧
    (s ≤ now % 1440 → wait_until_start_time now s = (now / 1440) * 1440 + s + 1440) := by
  clear hs
  constructor <;> intro h
  · rw [wait_until_start_time, if_neg (by omega)]
  · rw [wait_until_start_time, if_pos (by omega)]

/-- Witness for C7: at 25 hours past epoch (time of day 01:00) with start
time 00:30, the target is tomorrow's 00:30. -/
theorem wait_until_start_time_spec_witness :
    wait_until_start_time 1500 30 = (1500 / 1440) * 1440 + 30 + 1440 :=
  (wait_until_start_time_spec 1500 30 (by omega)).2 (by omega)

/-- C10 counterexample: for an LLM reply of 2001 characters, the flat entry
point returns a body of 2020 characters — the truncated text is prepended
with the 20-character header, so the body handed to the chunker does exceed
2000 characters. -/
theorem get_summary_length_counterexample :
    2000 < (get_summary false (List.replicate 2001 'a')).length := by
  have hne : List.replicate 2001 'a' ≠ [] :=
    List.length_pos.mp (by rw [List.length_replicate]; omega)
  rw [get_summary, if_neg (by simp), if_pos hne,
    if_pos (by rw [List.length_replicate]; omega)]
  have h20 : ("**Thread Summary:**\n".toList).length = 20 := by decide
  have h3 : ("...".toList).length = 3 := by decide
  rw [List.length_append, List.length_append, h20, h3, List.length_take,
    List.length_replicate]
  omega

/-- C10 (amended): a model reply longer than 2000 characters is cut to its
first 1997 characters plus an ellipsis in both entry points; the sectioned
entry point returns exactly that 2000-character text, while the flat entry
point prepends its 20-character header, so its body reaches 2020
characters. -/
theorem summary_truncation_spec (s : List Char) (h : 2000 < s.length) :
    get_summary false s = "**Thread Summary:**\n".toList ++ (s.take 1997 ++ "...".toList) ∧
    (get_summary false s).length = 2020 ∧
    get_sectioned_summary false false s = s.take 1997 ++ "...".toList ∧
    (get_sectioned_summary false false s).length = 2000 := by
  have hne : s ≠ [] := List.length_pos.mp (by omega)
  have h20 : ("**Thread Summary:**\n".toList).length = 20 := by decide
  have h3 : ("...".toList).length = 3 := by decide
  have h1 : get_summary false s =
      "**Thread Summary:**\n".toList ++ (s.take 1997 ++ "...".toList) := by
    rw [get_summary, if_neg (by simp), if_pos hne, if_pos h]
  have h2 : get_sectioned_summary false false s = s.take 1997 ++ "...".toList := by
    rw [get_sectioned_summary, if_neg (by simp), if_neg (by simp), if_pos hne, if_pos h]
  refine ⟨h1, ?_, h2, ?_⟩
  · rw [h1, List.length_append, List.length_append, h20, h3, List.length_take]
    omega
  · rw [h2, List.length_append, h3, List.length_take]
    omega

/-- Witness for C10 at a concrete 2001-character reply. -/
theorem summary_truncation_spec_witness :
    (get_sectioned_summary false false (List.replicate 2001 'b')).length = 2000 ∧
    (get_summary false (List.replicate 2001 'b')).length = 2020 :=
  ⟨(summary_truncation_spec (List.replicate 2001 'b')
      (by rw [List.length_replicate]; omega)).2.2.2,
    (summary_truncation_spec (List.replicate 2001 'b')
      (by rw [List.length_replicate]; omega)).2.1⟩

/-- C1 counterexample: a run in which the History Fetcher returns zero
messages skips the Summarization Pipeline and posts nothing, yet
`update_last_run` is still called, contradicting the claim that `last_run`
is updated only when content was posted. -/
theorem last_run_zero_messages_counterexample :
    (run_scheduled_summary envZeroMessages).1 = true ∧
    (run_scheduled_summary envZeroMessages).2.summarizerCalled = false ∧
    (run_scheduled_summary envZeroMessages).2.postedSummary = [] := by
  refine ⟨?_, ?_, ?_⟩ <;> rfl

/-- C1 (amended): in an exception-free run, `last_run` is updated exactly
when the guild resolves, the output channel resolves and the stored lookback
parses to a nonzero duration — independently of whether any summary content
was posted; a channel-type run with zero fetched messages still skips the
Summarization Pipeline and posts nothing, but no longer blocks the update. -/
theorem last_run_update_spec (env : RunEnv) :
    ((run_scheduled_summary env).1 = true ↔
      (env.guildFound = true ∧ env.outputChannelFound = true ∧
        parse_duration env.lookback ≠ 0)) ∧
    (env.scheduleType = "channel".toList → env.source.fetched = [] →
      (run_scheduled_summary env).2.summarizerCalled = false ∧
      (run_scheduled_summary env).2.postedSummary = []) := by
  refine ⟨?_, ?_⟩
  · cases hg : env.guildFound <;> cases ho : env.outputChannelFound <;>
      by_cases hd : parse_duration env.lookback = 0 <;>
      simp [run_scheduled_summary, hg, ho, hd]
  · intro hst hf
    cases hg : env.guildFound <;> cases ho : env.outputChannelFound <;>
      by_cases hd : parse_duration env.lookback = 0 <;>
      cases hsf : env.source.sourceFound <;>
      simp [run_scheduled_summary, run_channel_summary, hg, ho, hd, hst, hf, hsf]

/-- Witness for C1 at the zero-message environment. -/
theorem last_run_update_spec_witness :
    (run_scheduled_summary envZeroMessages).2.summarizerCalled = false ∧
    (run_scheduled_summary envZeroMessages).2.postedSummary = [] :=
  (last_run_update_spec envZeroMessages).2 rfl rfl

theorem rowConstraintsOk_iff (st : List Char) (ih : Int) :
    rowConstraintsOk st ih = true ↔
      ((st = "channel".toList ∨ st = "category".toList) ∧ 0 < ih) := by
  simp [rowConstraintsOk]

/-- C2: the store's create fails with ValidationError exactly when the kind
is neither channel nor category or the interval is not positive — the CHECK
constraints of the schema enforce this below the pre-validating callers —
and on valid input it appends a row with `active = true`, `last_run = null`
and returns the new SERIAL id. -/
theorem add_schedule_spec (db : ScheduleDB) (guild_id : Nat) (channel_ids : List Nat)
    (target_name schedule_type : List Char) (output_channel_id : Nat)
    (start_time : Nat) (interval_hours : Int) (lookback_duration : List Char)
    (created_by_user_id : Nat) :
    (add_schedule db guild_id channel_ids target_name schedule_type output_channel_id
        start_time interval_hours lookback_duration created_by_user_id =
        .error .validationError ↔
      ((schedule_type ≠ "channel".toList ∧ schedule_type ≠ "category".toList) ∨
        interval_hours ≤ 0)) ∧
    ((schedule_type = "channel".toList ∨ schedule_type = "category".toList) →
      0 < interval_hours →
      add_schedule db guild_id channel_ids target_name schedule_type output_channel_id
          start_time interval_hours lookback_duration created_by_user_id =
        .ok (db.nextId,
          { rows := db.rows ++
              [{ id := db.nextId, guild_id := guild_id, channel_ids := channel_ids,
                 target_name := target_name, schedule_type := schedule_type,
                 output_channel_id := output_channel_id, start_time := start_time,
                 interval_hours := interval_hours,
                 lookback_duration := lookback_duration,
                 created_by_user_id := created_by_user_id,
                 active := true, last_run := none }],
            nextId := db.nextId + 1 })) := by
  constructor
  · by_cases hok : rowConstraintsOk schedule_type interval_hours = true
    · rw [add_schedule]
      rw [if_pos hok]
      rw [rowConstraintsOk_iff] at hok
      constructor
      · intro hcontra
        cases hcontra
      · intro hbad
        rcases hbad with ⟨h1, h2⟩ | h3
        · rcases hok.1 with h | h
          · exact absurd h h1
          · exact absurd h h2
        · omega
    · rw [add_schedule, if_neg hok]
      rw [rowConstraintsOk_iff] at hok
      push_neg at hok
      constructor
      · intro _
        by_cases hc : schedule_type = "channel".toList
        · exact Or.inr (by have := hok (Or.inl hc); omega)
        · by_cases hcat : schedule_type = "category".toList
          · exact Or.inr (by have := hok (Or.inr hcat); omega)
          · exact Or.inl ⟨hc, hcat⟩
      · intro _
        rfl
  · intro hkind hiv
    rw [add_schedule, if_pos (by rw [rowConstraintsOk_iff]; exact ⟨hkind, hiv⟩)]

/-- Witness for C2: inserting a valid channel schedule into an empty table
yields id 1 and the expected row. -/
theorem add_schedule_spec_witness :
    add_schedule ⟨[], 1⟩ 9 [2] "general".toList "channel".toList 3 540 24
        "24h".toList 4 =
      .ok (1,
        { rows := [{ id := 1, guild_id := 9, channel_ids := [2],
                     target_name := "general".toList,
                     schedule_type := "channel".toList,
                     output_channel_id := 3, start_time := 540,
                     interval_hours := 24, lookback_duration := "24h".toList,
                     created_by_user_id := 4,
                     active := true, last_run := none }],
          nextId := 2 }) :=
  (add_schedule_spec ⟨[], 1⟩ 9 [2] "general".toList "channel".toList 3 540 24
      "24h".toList 4).2 (Or.inl rfl) (by omega)

theorem mem_foldl_threads (f : SThread → List Msg) :
    ∀ (ts : List SThread) (init : List Msg) (m : Msg),
      m ∈ ts.foldl (fun acc t => if t.fetchOk then acc ++ f t else acc) init ↔
        m ∈ init ∨ ∃ t ∈ ts, t.fetchOk = true ∧ m ∈ f t
  | [], init, m => by simp
  | t :: ts, init, m => by
    rw [List.foldl_cons, mem_foldl_threads f ts _ m]
    cases ht : t.fetchOk <;> simp [ht, List.mem_append] <;> tauto

theorem mem_channelHistory_created {msgs : List Msg} {cutoff limit : Nat} {m : Msg}
    (h : m ∈ channelHistory msgs cutoff limit) : cutoff < m.createdAt := by
  rw [channelHistory] at h
  have h2 := List.mem_filter.mp (List.take_subset _ _ h)
  simpa using h2.2

/-- C3 (amended): the merged fetch result contains exactly the messages of
the per-container histories — the source's and every collected thread's whose
fetch succeeded — where each history is capped at the oldest `limit` (default
500) messages STRICTLY after the cutoff; every returned message is after the
cutoff, and whenever the source has at most `limit` messages after the
cutoff, none of its after-cutoff messages is omitted. -/
theorem fetch_messages_spec (c : SChannel) (cutoff limit : Nat) (m : Msg) :
    (m ∈ fetch_messages_with_threads c cutoff limit ↔
      (m ∈ channelHistory c.history cutoff limit ∨
        ∃ t ∈ collectThreads c, t.fetchOk = true ∧
          m ∈ channelHistory t.history cutoff limit)) ∧
    (m ∈ fetch_messages_with_threads c cutoff limit → cutoff < m.createdAt) ∧
    ((c.history.filter (fun x => decide (cutoff < x.createdAt))).length ≤ limit →
      m ∈ c.history → cutoff < m.createdAt →
      m ∈ fetch_messages_with_threads c cutoff limit) := by
  have hmem : m ∈ fetch_messages_with_threads c cutoff limit ↔
      (m ∈ channelHistory c.history cutoff limit ∨
        ∃ t ∈ collectThreads c, t.fetchOk = true ∧
          m ∈ channelHistory t.history cutoff limit) := by
    simp only [fetch_messages_with_threads]
    rw [List.mem_mergeSort, mem_foldl_threads]
  refine ⟨hmem, ?_, ?_⟩
  · intro hm
    rcases hmem.mp hm with h | ⟨t, _, _, h⟩
    · exact mem_channelHistory_created h
    · exact mem_channelHistory_created h
  · intro hlen hmem2 hcr
    refine hmem.mpr (Or.inl ?_)
    rw [channelHistory, List.take_of_length_le hlen]
    exact List.mem_filter.mpr ⟨hmem2, by simpa using hcr⟩

/-- Witness for C3: a single-message channel with no threads returns its one
after-cutoff message. -/
theorem fetch_messages_spec_witness :
    (⟨5⟩ : Msg) ∈ fetch_messages_with_threads
      { history := [⟨5⟩], threads := [], archivedThreads := [], archivedOk := true,
        privateArchivedThreads := [], privateOk := true } 0 500 :=
  (fetch_messages_spec _ 0 500 ⟨5⟩).2.2 (by decide) (by decide) (by decide)

/-- C3 counterexample: message 501 was created after the cutoff and sits in
the source channel, yet the fetch — capped at `limit=500` messages per
container — omits it from the merged result. -/
theorem fetch_cap_counterexample :
    (⟨501⟩ : Msg) ∈ bigChannel.history ∧ 0 < (501 : Nat) ∧
    (⟨501⟩ : Msg) ∉ fetch_messages_with_threads bigChannel 0 500 := by
  refine ⟨List.mem_map.mpr ⟨500, List.mem_range.mpr (by omega), rfl⟩, by omega, ?_⟩
  intro hm
  have hthreads : collectThreads bigChannel = [] := rfl
  rcases (fetch_messages_spec bigChannel 0 500 ⟨501⟩).1.mp hm with h | ⟨t, ht, _, _⟩
  · rw [channelHistory] at h
    have hall : (bigChannel.history.filter (fun x => decide (0 < x.createdAt))) =
        bigChannel.history := by
      refine List.filter_eq_self.mpr ?_
      intro x hx
      rcases List.mem_map.mp hx with ⟨i, _, rfl⟩
      simp
    rw [hall] at h
    have hx : (List.range 501).map (fun i => (⟨i + 1⟩ : Msg)) =
        (List.range 500).map (fun i => (⟨i + 1⟩ : Msg)) ++ [⟨501⟩] := by decide
    have htake : bigChannel.history.take 500 =
        (List.range 500).map (fun i => (⟨i + 1⟩ : Msg)) := by
      show ((List.range 501).map (fun i => (⟨i + 1⟩ : Msg))).take 500 = _
      rw [hx, List.take_append_of_le_length (by simp), List.take_of_length_le (by simp)]
    rw [htake] at h
    rcases List.mem_map.mp h with ⟨i, hi, heq⟩
    have : i + 1 = 501 := congrArg Msg.createdAt heq
    have := List.mem_range.mp hi
    omega
  · rw [hthreads] at ht
    simp at ht

theorem mergeSort_pair {α : Type} (le : α → α → Bool) (a b : α) :
    List.mergeSort [a, b] le = if le a b then [a, b] else [b, a] := by
  rw [List.mergeSort]
  simp [List.splitInTwo, List.splitAt, List.splitAt.go, List.mergeSort, List.merge]

theorem listActive_dbC8_eval :
    get_all_active_schedules dbC8 none = [rowEarlierGuild, rowLaterStart] := by
  simp only [get_all_active_schedules]
  rw [show dbC8.rows.filter (fun r => r.active) = [rowLaterStart, rowEarlierGuild] from rfl]
  rw [mergeSort_pair]
  rw [if_neg (by decide)]

/-- C8 counterexample: with no tenant filter the store orders by tenant id
first, so the returned start times are [120, 60] — not ascending by start
time as the claim states. -/
theorem listActive_order_counterexample :
    (get_all_active_schedules dbC8 none).map (fun r => r.start_time) = [120, 60] ∧
    ¬ List.Pairwise (fun a b : Nat => a ≤ b)
        ((get_all_active_schedules dbC8 none).map (fun r => r.start_time)) := by
  rw [listActive_dbC8_eval]
  refine ⟨by decide, by decide⟩

/-- C8 (amended): listActive returns exactly the active rows.  With a
nonzero tenant id it filters to that tenant and orders by start time
ascending; with no tenant (or tenant id 0, which Python's truthiness treats
as no filter) it returns all active rows ordered by tenant id first and
start time second.  In both orders, rows with equal sort keys keep their
insertion order (the model reads `ORDER BY` as a stable sort). -/
theorem listActive_spec (db : ScheduleDB) :
    (∀ g : Nat, g ≠ 0 →
      ((get_all_active_schedules db (some g)).Perm
          (db.rows.filter (fun r => r.active && decide (r.guild_id = g))) ∧
        List.Pairwise (fun a b : ScheduleRow => a.start_time ≤ b.start_time)
          (get_all_active_schedules db (some g)))) ∧
    ((get_all_active_schedules db none).Perm (db.rows.filter (fun r => r.active)) ∧
      List.Pairwise (fun a b : ScheduleRow =>
          a.guild_id < b.guild_id ∨ (a.guild_id = b.guild_id ∧ a.start_time ≤ b.start_time))
        (get_all_active_schedules db none)) ∧
    (∀ a b : ScheduleRow, List.Sublist [a, b] (db.rows.filter (fun r => r.active)) →
      a.guild_id = b.guild_id → a.start_time = b.start_time →
      List.Sublist [a, b] (get_all_active_schedules db none)) := by
  have htr : ∀ x y z : ScheduleRow, scheduleLe x y → scheduleLe y z → scheduleLe x z := by
    intro x y z
    simp only [scheduleLe, decide_eq_true_eq]
    omega
  have hto : ∀ x y : ScheduleRow, scheduleLe x y || scheduleLe y x := by
    intro x y
    simp only [scheduleLe, Bool.or_eq_true, decide_eq_true_eq]
    omega
  have htr2 : ∀ x y z : ScheduleRow,
      scheduleGuildLe x y → scheduleGuildLe y z → scheduleGuildLe x z := by
    intro x y z
    simp only [scheduleGuildLe, Bool.or_eq_true, Bool.and_eq_true, decide_eq_true_eq]
    omega
  have hto2 : ∀ x y : ScheduleRow, scheduleGuildLe x y || scheduleGuildLe y x := by
    intro x y
    simp only [scheduleGuildLe, Bool.or_eq_true, Bool.and_eq_true, decide_eq_true_eq]
    omega
  refine ⟨?_, ⟨?_, ?_⟩, ?_⟩
  · intro g hg
    simp only [get_all_active_schedules]
    rw [if_pos hg]
    refine ⟨List.mergeSort_perm _ _, ?_⟩
    refine (List.sorted_mergeSort htr hto
      (db.rows.filter (fun r => r.active && decide (r.guild_id = g)))).imp ?_
    intro a b h
    simpa [scheduleLe] using h
  · simp only [get_all_active_schedules]
    exact List.mergeSort_perm _ _
  · simp only [get_all_active_schedules]
    refine (List.sorted_mergeSort htr2 hto2 (db.rows.filter (fun r => r.active))).imp ?_
    intro a b h
    simpa [scheduleGuildLe] using h
  · intro a b hab hg hs
    simp only [get_all_active_schedules]
    refine List.sublist_mergeSort htr2 hto2 ?_ hab
    refine List.pairwise_pair.mpr ?_
    simp [scheduleGuildLe, hg, hs]

/-- Witness for C8: filtering the counterexample table by tenant 1 keeps
exactly tenant 1's active rows. -/
theorem listActive_spec_witness :
    (get_all_active_schedules dbC8 (some 1)).Perm
      (dbC8.rows.filter (fun r => r.active && decide (r.guild_id = 1))) :=
  ((listActive_spec dbC8).1 1 (by omega)).1

end BajaBot
